import Mathlib

/-!
# Verification of the sshm host/history core

Shallow embedding of the sshm repository's connection-history subsystem
(`internal/history`), the manual-connection codec and SSH argument parser
(`internal/history/parser.go`), and the legacy bash `sshm_delete` rewrite
discipline, together with theorems settling the frozen specification claims.

Modelling conventions:
* Go strings are modelled as Lean `String`, and the byte-level operations the
  source performs (`len`, slicing, `strings.HasPrefix`, `strings.Contains`)
  are modelled on the character list `String.data`.  Every pattern the source
  compares against (`"manual:"`, `"-p"`, `"@"`, `":"`, `"-"`) is ASCII, and in
  UTF-8 an ASCII byte can only occur as a whole character, so byte-level
  prefix/containment/split-at tests coincide with the character-level ones.
* `time.Time` values are modelled as `Nat` instants; `time.Time.After` is `>`.
* Go `int` counters are modelled as `Nat`: the only arithmetic performed on
  them is `++` starting from small literals, so 64-bit overflow is unreachable.
* Go `map[string]T` is modelled as an association list with first-match
  lookup; insertion replaces the first binding with the key, so lookup agrees
  with Go map semantics.  The map iterations performed by the source
  (`CleanupOldEntries`) are order-insensitive, so list order is irrelevant.
* Filesystem effects are modelled by an explicit `FS` state with
  per-path failure injection and a log of write/mkdir/remove operations
  (recording the permission mode passed by the source).
* `sort.Slice` is modelled as a stable insertion sort ordered by the
  reflexive closure of the source's `less` comparator
  (`le a b := (less b a = false)`), i.e. the result is a permutation that is
  sorted according to `less`.  On the short inputs used below this coincides
  with Go's concrete behaviour: `sort.Slice` runs insertion sort for slices
  shorter than 12 elements and performs no swap when the comparator returns
  `false` for both orders of a pair.
-/

namespace Sshm

/-! ## Byte/character level string helpers (Go `strings` package) -/

/-- Go `strings.HasPrefix s pat` (byte-wise; coincides with character-wise
for the ASCII patterns used by the source). -/
def goStartsWith (s pat : String) : Bool :=
  pat.data.isPrefixOf s.data

/-- Go `strings.Contains s (string c)` for a single ASCII character `c`. -/
def goContainsChar (s : String) (c : Char) : Bool :=
  s.data.contains c

/-- Split a character list at the first occurrence of `c`:
`some (before, after)` with `before ++ c :: after` the input, `c ∉ before`;
`none` when `c` does not occur.  Used to model Go's `strings.SplitN (· , 2)`
and the source's explicit first-index scan. -/
def splitAtFirstChar (c : Char) : List Char → Option (List Char × List Char)
  | [] => none
  | x :: xs =>
    if x = c then some ([], xs)
    else
      match splitAtFirstChar c xs with
      | none => none
      | some (a, b) => some (x :: a, b)

/-- Split a character list at the last occurrence of `c`; models the source's
backwards scan for the last `':'`. -/
def splitAtLastChar (c : Char) (l : List Char) : Option (List Char × List Char) :=
  match splitAtFirstChar c l.reverse with
  | none => none
  | some (a, b) => some (b.reverse, a.reverse)

/-! ## Manual connection codec (internal/ui/edit_form.go, history package) -/

/-- `ManualConnection` (edit_form.go lines 858-863): an ad-hoc SSH
connection `ssh user@host -p port -i key`. -/
structure ManualConnection where
  user : String
  hostname : String
  port : String
  identity : String
deriving DecidableEq, Repr

/-- `generateManualHostID` (edit_form.go lines 890-902):
`fmt.Sprintf("manual:%s@%s:%s", user, hostname, port)` with empty user
replaced by `"default"` and empty port by `"22"`. -/
def generateManualHostID (conn : ManualConnection) : String :=
  let user := if conn.user = "" then "default" else conn.user
  let port := if conn.port = "" then "22" else conn.port
  "manual:" ++ user ++ "@" ++ conn.hostname ++ ":" ++ port

/-- `IsManualConnection` (edit_form.go lines 904-907):
`len(hostName) > 7 && hostName[:7] == "manual:"`.  The Go test is on bytes;
since `"manual:"` is ASCII it is equivalent to this character-level test. -/
def IsManualConnection (hostName : String) : Bool :=
  decide (7 < hostName.data.length) && (hostName.data.take 7 == "manual:".data)

/-- `ParseManualConnectionID` (edit_form.go lines 909-951): strip the
`"manual:"` prefix, split at the last `':'` into user-host and port, then
split the user-host part at the first `'@'`.  The Go function returns
`(user, hostname, port, ok)`; we model the `ok=false` outcome as `none`. -/
def ParseManualConnectionID (hostID : String) : Option (String × String × String) :=
  if IsManualConnection hostID then
    let rest := hostID.data.drop 7
    match splitAtLastChar ':' rest with
    | none => none
    | some (userHost, portChars) =>
      match splitAtFirstChar '@' userHost with
      | none => none
      | some (userChars, hostChars) =>
        some (String.mk userChars, String.mk hostChars, String.mk portChars)
  else none

/-! ## SSH argument parser (internal/history/parser.go) -/

/-- The scanning loop of `ParseSSHArgs` (parser.go lines 26-67), with the
index mutation of the Go `for` loop expressed as recursion over the remaining
tokens.  `none` models the early `return nil, false` taken on a `-F`, `-c` or
`--config` token in flag position. -/
def parseLoop (conn : ManualConnection) : List String → Option ManualConnection
  | [] => some conn
  | arg :: rest =>
    if arg = "-p" then
      match rest with
      | v :: rest2 => parseLoop { conn with port := v } rest2
      | [] => some conn
    else if goStartsWith arg "-p" then
      parseLoop { conn with port := String.mk (arg.data.drop 2) } rest
    else if arg = "-i" then
      match rest with
      | v :: rest2 => parseLoop { conn with identity := v } rest2
      | [] => some conn
    else if arg = "-F" ∨ arg = "-c" ∨ arg = "--config" then
      none
    else if goStartsWith arg "-" then
      match rest with
      | v :: rest2 =>
        if goStartsWith v "-" then parseLoop conn (v :: rest2) else parseLoop conn rest2
      | [] => some conn
    else if goContainsChar arg '@' then
      match splitAtFirstChar '@' arg.data with
      | some (userChars, hostChars) =>
        parseLoop { conn with user := String.mk userChars, hostname := String.mk hostChars } rest
      | none => parseLoop conn rest
    else if conn.hostname = "" then
      parseLoop { conn with hostname := arg } rest
    else
      parseLoop conn rest
termination_by args => args.length
decreasing_by all_goals (simp only [List.length_cons]; omega)

/-- `ParseSSHArgs` (parser.go lines 10-75).  `currentUser` models the result
of `user.Current()`: `some u` on success (the default user), `none` on error
(in which case the Go code leaves `conn.User` empty). -/
def ParseSSHArgs (currentUser : Option String) (args : List String) : Option ManualConnection :=
  match args with
  | [] => none
  | _ :: _ =>
    let init : ManualConnection :=
      { user := currentUser.getD "", hostname := "", port := "22", identity := "" }
    match parseLoop init args with
    | none => none
    | some c => if c.hostname = "" then none else some c

/-- The token scan of `IsManualSSHCommand` (parser.go lines 85-92), with the
early `return true` expressed as recursion. -/
def isManualLoop : List String → Bool
  | [] => false
  | arg :: rest =>
    if arg = "-p" ∨ goStartsWith arg "-p" then true
    else if goContainsChar arg '@' then true
    else isManualLoop rest

/-- `IsManualSSHCommand` (parser.go lines 77-95). -/
def IsManualSSHCommand (args : List String) : Bool :=
  match args with
  | [] => false
  | _ :: _ => isManualLoop args

/-! ## History store data model (internal/ui/edit_form.go, history package,
lines 547-951 — the current version of the package) -/

/-- `config.SSHHost`.  The `config` package is not part of the provided
sources; the history code reads only the `Name` field of a host, so only that
field is modelled. -/
structure SSHHost where
  name : String
deriving DecidableEq, Repr

/-- `PortForwardConfig` (edit_form.go lines 565-572). -/
structure PortForwardConfig where
  fwdType : String
  localPort : String
  remoteHost : String
  remotePort : String
  bindAddress : String
deriving DecidableEq, Repr

/-- `ConnectionInfo` (edit_form.go lines 574-580); `LastConnect` is a `Nat`
instant, `ConnectCount` a `Nat` (see the header notes). -/
structure ConnectionInfo where
  hostName : String
  lastConnect : Nat
  connectCount : Nat
  portForwarding : Option PortForwardConfig
deriving DecidableEq, Repr

/-- The in-memory `map[string]ConnectionInfo` of `ConnectionHistory`. -/
abbrev HistMap := List (String × ConnectionInfo)

/-- Go map assignment `m[k] = v`: replace the (unique) binding of `k`, or add
one. -/
def setAssoc {β : Type} : List (String × β) → String → β → List (String × β)
  | [], k, v => [(k, v)]
  | (k0, v0) :: rest, k, v =>
    if k0 = k then (k, v) :: rest else (k0, v0) :: setAssoc rest k v

/-- `GetConnectionCount` (edit_form.go lines 720-726): 0 when absent. -/
def GetConnectionCount (m : HistMap) (hostName : String) : Nat :=
  match m.lookup hostName with
  | some conn => conn.connectCount
  | none => 0

/-- `GetLastConnectionTime` (edit_form.go lines 712-718); the Go
`(time.Time, bool)` pair is modelled as `Option Nat`. -/
def GetLastConnectionTime (m : HistMap) (hostName : String) : Option Nat :=
  (m.lookup hostName).map (fun conn => conn.lastConnect)

/-- The map update performed by `RecordConnection` (edit_form.go lines
691-710): upsert with `connectCount+1` / `connectCount=1` and
`lastConnect=now`. -/
def recordConnectionMap (m : HistMap) (hostName : String) (now : Nat) : HistMap :=
  match m.lookup hostName with
  | some conn =>
    setAssoc m hostName { conn with lastConnect := now, connectCount := conn.connectCount + 1 }
  | none =>
    setAssoc m hostName
      { hostName := hostName, lastConnect := now, connectCount := 1, portForwarding := none }

/-- The map update performed by `CleanupOldEntries` (edit_form.go lines
786-802): build the set of current host names and delete every entry whose
key is not in it. -/
def cleanupOldEntriesMap (m : HistMap) (currentHosts : List SSHHost) : HistMap :=
  let currentHostNames := currentHosts.map SSHHost.name
  m.filter (fun kv => currentHostNames.contains kv.1)

/-- The `less` comparator passed to `sort.Slice` by `SortHostsByMostUsed`
(edit_form.go lines 762-781): count descending; on equal counts, recency when
both hosts have history; otherwise name ascending. -/
def lessMostUsed (m : HistMap) (a b : SSHHost) : Bool :=
  let countI := GetConnectionCount m a.name
  let countJ := GetConnectionCount m b.name
  if countI ≠ countJ then decide (countJ < countI)
  else
    match GetLastConnectionTime m a.name, GetLastConnectionTime m b.name with
    | some timeI, some timeJ => decide (timeJ < timeI)
    | _, _ => decide (a.name < b.name)

/-- `SortHostsByMostUsed` (edit_form.go lines 757-784); `sort.Slice` is
modelled as a stable sort according to the comparator (see header notes). -/
def SortHostsByMostUsed (m : HistMap) (hosts : List SSHHost) : List SSHHost :=
  hosts.insertionSort (fun a b => lessMostUsed m b a = false)

/-! ## Filesystem model for the persistence layer -/

/-- On-disk file content: either a well-formed history document (every
serialized document deserializes back to itself) or bytes that
`json.Unmarshal` rejects. -/
inductive FileData where
  | doc (connections : HistMap)
  | raw (bytes : String)
deriving DecidableEq, Repr

/-- Error outcomes of the modelled filesystem/JSON operations.  `notExist` is
the error recognized by `os.IsNotExist`; `resolveErr` models a failure of the
directory-resolution helpers of the `config` package. -/
inductive FsErr where
  | notExist
  | ioErr
  | resolveErr
  | badJson
deriving DecidableEq, Repr

/-- `os.IsNotExist`. -/
def isNotExistErr : FsErr → Bool
  | .notExist => true
  | _ => false

/-- Logged filesystem side effects, recording the permission mode the source
passes to `os.WriteFile` / `os.MkdirAll`. -/
inductive FsOp where
  | write (path : String) (mode : Nat)
  | mkdir (path : String) (mode : Nat)
  | remove (path : String)
deriving DecidableEq, Repr

/-- Filesystem state: file contents, per-path injected failures, and the
operation log. -/
structure FS where
  files : List (String × FileData)
  failRead : List String
  failWrite : List String
  failRemove : List String
  failMkdir : List String
  log : List FsOp
deriving DecidableEq, Repr

/-- `os.Stat` used as an existence test. -/
def FS.statExists (fs : FS) (p : String) : Bool :=
  (fs.files.lookup p).isSome

/-- `os.ReadFile`. -/
def FS.readFile (fs : FS) (p : String) : Except FsErr FileData :=
  if fs.failRead.contains p then .error .ioErr
  else
    match fs.files.lookup p with
    | some d => .ok d
    | none => .error .notExist

/-- `os.WriteFile` with a permission mode; a failed write creates nothing. -/
def FS.writeFile (fs : FS) (p : String) (d : FileData) (mode : Nat) :
    Except FsErr Unit × FS :=
  let fs1 := { fs with log := fs.log ++ [FsOp.write p mode] }
  if fs.failWrite.contains p then (.error .ioErr, fs1)
  else (.ok (), { fs1 with files := setAssoc fs1.files p d })

/-- `os.MkdirAll` with a permission mode (directories themselves are not
tracked beyond the log). -/
def FS.mkdirAll (fs : FS) (p : String) (mode : Nat) : Except FsErr Unit × FS :=
  let fs1 := { fs with log := fs.log ++ [FsOp.mkdir p mode] }
  if fs.failMkdir.contains p then (.error .ioErr, fs1) else (.ok (), fs1)

/-- `os.Remove`. -/
def FS.removeFile (fs : FS) (p : String) : Except FsErr Unit × FS :=
  let fs1 := { fs with log := fs.log ++ [FsOp.remove p] }
  if fs.failRemove.contains p then (.error .ioErr, fs1)
  else (.ok (), { fs1 with files := fs1.files.filter (fun kv => !(kv.1 == p)) })

/-- `json.Unmarshal` into `ConnectionHistory`. -/
def unmarshalHistory : FileData → Except FsErr HistMap
  | .doc m => .ok m
  | .raw _ => .error .badJson

/-- `filepath.Join dir file` for a relative `file`. -/
def filepathJoin (dir file : String) : String :=
  dir ++ "/" ++ file

/-- `filepath.Dir`: everything before the last `'/'` (the source only applies
it to paths produced by `filepathJoin`). -/
def filepathDir (p : String) : String :=
  match splitAtLastChar '/' p.data with
  | some (d, _) => String.mk d
  | none => "."

/-- Environment supplied by the `config` package and `os`:
`GetSSHMConfigDir` and `GetSSHDirectory` results (`none` models an error). -/
structure Env where
  sshmConfigDir : Option String
  sshDir : Option String
deriving DecidableEq, Repr

/-- `HistoryManager` (edit_form.go lines 582-586). -/
structure HistoryManager where
  historyPath : String
  history : HistMap
deriving DecidableEq, Repr

/-- `migrateOldHistoryFile` (edit_form.go lines 626-663): skip if the new
file exists; otherwise copy the old file (if any) to the new path with mode
0644 and best-effort remove the old file. -/
def migrateOldHistoryFile (env : Env) (fs : FS) (newHistoryPath : String) :
    Except FsErr Unit × FS :=
  if fs.statExists newHistoryPath then (.ok (), fs)
  else
    match env.sshDir with
    | none => (.error .resolveErr, fs)
    | some sshDir =>
      let oldHistoryPath := filepathJoin sshDir "sshm_history.json"
      if fs.statExists oldHistoryPath = false then (.ok (), fs)
      else
        match fs.readFile oldHistoryPath with
        | .error e => (.error e, fs)
        | .ok data =>
          match fs.writeFile newHistoryPath data 0o644 with
          | (.error e, fs2) => (.error e, fs2)
          | (.ok _, fs2) =>
            let (_, fs3) := fs2.removeFile oldHistoryPath
            (.ok (), fs3)

/-- `loadHistory` (edit_form.go lines 665-673). -/
def loadHistory (fs : FS) (hm : HistoryManager) : Except FsErr HistoryManager :=
  match fs.readFile hm.historyPath with
  | .error e => .error e
  | .ok d =>
    match unmarshalHistory d with
    | .error e => .error e
    | .ok m => .ok { hm with history := m }

/-- `saveHistory` (edit_form.go lines 675-689): `MkdirAll(dir, 0700)` then
`WriteFile(path, data, 0600)` (`json.MarshalIndent` cannot fail on this
type). -/
def saveHistory (fs : FS) (hm : HistoryManager) : Except FsErr Unit × FS :=
  match fs.mkdirAll (filepathDir hm.historyPath) 0o700 with
  | (.error e, fs1) => (.error e, fs1)
  | (.ok _, fs1) => fs1.writeFile hm.historyPath (.doc hm.history) 0o600

/-- `NewHistoryManager` (edit_form.go lines 588-623): resolve the config
directory, `MkdirAll(configDir, 0755)`, run the migration ignoring its
result, then load the history, tolerating only a not-exist failure. -/
def NewHistoryManager (env : Env) (fs : FS) : Except FsErr HistoryManager × FS :=
  match env.sshmConfigDir with
  | none => (.error .resolveErr, fs)
  | some configDir =>
    match fs.mkdirAll configDir 0o755 with
    | (.error e, fs1) => (.error e, fs1)
    | (.ok _, fs1) =>
      let historyPath := filepathJoin configDir "sshm_history.json"
      let (_, fs2) := migrateOldHistoryFile env fs1 historyPath
      let hm : HistoryManager := { historyPath := historyPath, history := [] }
      match loadHistory fs2 hm with
      | .ok hm2 => (.ok hm2, fs2)
      | .error e => if isNotExistErr e then (.ok hm, fs2) else (.error e, fs2)

/-- `RecordConnection` (edit_form.go lines 691-710): update the in-memory map
(before any I/O), then persist the whole document via `saveHistory`. -/
def RecordConnection (fs : FS) (hm : HistoryManager) (hostName : String) (now : Nat) :
    Except FsErr Unit × HistoryManager × FS :=
  let hm2 := { hm with history := recordConnectionMap hm.history hostName now }
  let (r, fs2) := saveHistory fs hm2
  (r, hm2, fs2)

/-- `CleanupOldEntries` (edit_form.go lines 786-802): filter the in-memory
map, then persist via `saveHistory`. -/
def CleanupOldEntries (fs : FS) (hm : HistoryManager) (currentHosts : List SSHHost) :
    Except FsErr Unit × HistoryManager × FS :=
  let hm2 := { hm with history := cleanupOldEntriesMap hm.history currentHosts }
  let (r, fs2) := saveHistory fs hm2
  (r, hm2, fs2)

/-! ## Legacy bash `sshm_delete` (src/unnamed/part_001 lines 181-213,
src/unnamed/part_003 lines 223-255; both variants are identical up to
colored output) -/

/-- The `sed` range delete used by `sshm_delete`:
`sed /^Host <host>$/,/^$/d` — delete every line from an exact
`Host <host>` line through the next blank line (inclusive), ranges may
repeat.  The `Bool` flag is the sed range state. -/
def sedDeleteAux (host : String) : Bool → List String → List String
  | _, [] => []
  | false, line :: rest =>
    if line = "Host " ++ host then sedDeleteAux host true rest
    else line :: sedDeleteAux host false rest
  | true, line :: rest =>
    if line = "" then sedDeleteAux host false rest
    else sedDeleteAux host true rest

/-- The content `sshm_delete` writes to its temporary file. -/
def sedDeleteBlock (host : String) (content : List String) : List String :=
  sedDeleteAux host false content

/-- Observable outcome of one `sshm_delete` run: the final content of the
config file, whether the `.bak` backup file is left behind, whether the
temporary file is left behind, and whether the command exited with an
error. -/
structure DeleteOutcome where
  configContent : List String
  backupLeft : Bool
  tmpLeft : Bool
  failed : Bool
deriving DecidableEq, Repr

/-- `sshm_delete config_file host` (empty-host check, `cp` backup, `sed` into
a temp file, then: non-empty temp file → `mv` it over the config and delete
the backup; empty temp file → `mv` the backup back over the untouched config,
delete the temp file, and fail).  A file is "empty" for `[[ -s f ]]` exactly
when it has no lines, since every written line carries its newline byte. -/
def sshmDelete (configContent : List String) (host : String) : DeleteOutcome :=
  if host = "" then
    { configContent := configContent, backupLeft := false, tmpLeft := false, failed := true }
  else
    let newContent := sedDeleteBlock host configContent
    if newContent ≠ [] then
      { configContent := newContent, backupLeft := false, tmpLeft := false, failed := false }
    else
      { configContent := configContent, backupLeft := false, tmpLeft := false, failed := true }

/-- A filesystem state holding the given files, with no injected failures
and an empty log; used for concrete test states. -/
def fsWith (files : List (String × FileData)) : FS :=
  { files := files, failRead := [], failWrite := [], failRemove := [], failMkdir := [], log := [] }

/-! ## Helper lemmas -/

theorem lookup_filterKeys {β : Type} (p : String → Bool) (m : List (String × β)) (id : String) :
    (m.filter fun kv => p kv.1).lookup id = if p id then m.lookup id else none := by
  induction m with
  | nil => simp [List.lookup]
  | cons kv rest ih =>
    obtain ⟨k, v⟩ := kv
    by_cases hk : id = k
    · subst hk
      by_cases hp : p id
      · simp [List.filter, List.lookup, hp]
      · simp [List.filter, List.lookup, hp, ih]
    · have hbeq : (id == k) = false := beq_false_of_ne hk
      by_cases hp2 : p k
      · simp [List.filter, List.lookup, hp2, hbeq, ih]
      · simp [List.filter, List.lookup, hp2, hbeq, ih]

theorem lookup_setAssoc_self {β : Type} (m : List (String × β)) (k : String) (v : β) :
    (setAssoc m k v).lookup k = some v := by
  induction m with
  | nil => simp [setAssoc, List.lookup]
  | cons kv rest ih =>
    obtain ⟨k0, v0⟩ := kv
    by_cases hk : k0 = k
    · simp [setAssoc, hk, List.lookup]
    · have hbeq : (k == k0) = false := beq_false_of_ne (fun h => hk h.symm)
      simp [setAssoc, hk, List.lookup, hbeq, ih]

theorem lookup_setAssoc_ne {β : Type} (m : List (String × β)) (k other : String) (v : β)
    (h : other ≠ k) :
    (setAssoc m k v).lookup other = m.lookup other := by
  induction m with
  | nil => simp [setAssoc, List.lookup, beq_false_of_ne h]
  | cons kv rest ih =>
    obtain ⟨k0, v0⟩ := kv
    by_cases hk : k0 = k
    · subst hk
      simp [setAssoc, List.lookup, beq_false_of_ne h]
    · simp only [setAssoc, if_neg hk]
      by_cases ho : other = k0
      · subst ho
        simp [List.lookup]
      · simp [List.lookup, beq_false_of_ne ho, ih]

theorem saveHistory_success (fs : FS) (hm : HistoryManager)
    (hmk : fs.failMkdir.contains (filepathDir hm.historyPath) = false)
    (hwr : fs.failWrite.contains hm.historyPath = false) :
    (saveHistory fs hm).1 = .ok ()
    ∧ (saveHistory fs hm).2.files.lookup hm.historyPath = some (.doc hm.history)
    ∧ (saveHistory fs hm).2.log =
        fs.log ++ [FsOp.mkdir (filepathDir hm.historyPath) 0o700,
                   FsOp.write hm.historyPath 0o600] := by
  have hmk2 : filepathDir hm.historyPath ∉ fs.failMkdir := by simpa using hmk
  have hwr2 : hm.historyPath ∉ fs.failWrite := by simpa using hwr
  refine ⟨?_, ?_, ?_⟩ <;>
    simp [saveHistory, FS.mkdirAll, FS.writeFile, hmk2, hwr2, lookup_setAssoc_self]

/-! ## Claim theorems -/

/-- C1, counterexample: `CleanupOldEntries` does not exempt manual
identifiers.  With history `{"web", "manual:u@h:22"}` and an empty current
host list, the claim predicts that `"manual:u@h:22"` survives, but the code
deletes every entry, the manual one included. -/
theorem cleanup_deletes_manual_counterexample :
    cleanupOldEntriesMap
        [("web", { hostName := "web", lastConnect := 100, connectCount := 3,
                   portForwarding := none }),
         ("manual:u@h:22", { hostName := "manual:u@h:22", lastConnect := 200, connectCount := 1,
                             portForwarding := none })] [] = []
    ∧ (cleanupOldEntriesMap
        [("web", { hostName := "web", lastConnect := 100, connectCount := 3,
                   portForwarding := none }),
         ("manual:u@h:22", { hostName := "manual:u@h:22", lastConnect := 200, connectCount := 1,
                             portForwarding := none })] []).lookup "manual:u@h:22" = none
    ∧ IsManualConnection "manual:u@h:22" = true := by
  refine ⟨by decide, by decide, by decide⟩

/-- C1, amended: after `CleanupOldEntries(currentHosts)` an entry survives
precisely when its identifier is the name of some host in `currentHosts`;
manual identifiers are not exempt.  The in-memory result is then persisted
via `saveHistory` (shown on the failure-free paths). -/
theorem cleanup_keeps_exactly_current_hosts :
    (∀ (m : HistMap) (hosts : List SSHHost) (id : String),
        (cleanupOldEntriesMap m hosts).lookup id =
          if (hosts.map SSHHost.name).contains id then m.lookup id else none)
    ∧ (∀ (fs : FS) (hm : HistoryManager) (hosts : List SSHHost),
        (CleanupOldEntries fs hm hosts).2.1.history = cleanupOldEntriesMap hm.history hosts
        ∧ (fs.failMkdir.contains (filepathDir hm.historyPath) = false →
           fs.failWrite.contains hm.historyPath = false →
           (CleanupOldEntries fs hm hosts).2.2.files.lookup hm.historyPath =
             some (.doc (cleanupOldEntriesMap hm.history hosts)))) := by
  constructor
  · intro m hosts id
    simpa [cleanupOldEntriesMap] using
      lookup_filterKeys (fun s => (hosts.map SSHHost.name).contains s) m id
  · intro fs hm hosts
    refine ⟨rfl, fun hmk hwr => ?_⟩
    exact (saveHistory_success fs
      { hm with history := cleanupOldEntriesMap hm.history hosts } hmk hwr).2.1

/-- C1, amended, witness. -/
theorem cleanup_keeps_exactly_current_hosts_witness :
    (CleanupOldEntries (fsWith [])
      { historyPath := "/cfg/sshm_history.json",
        history := [("web", { hostName := "web", lastConnect := 1, connectCount := 1,
                              portForwarding := none })] }
      []).2.2.files.lookup "/cfg/sshm_history.json" = some (.doc []) := by
  have h := (cleanup_keeps_exactly_current_hosts.2 (fsWith [])
    { historyPath := "/cfg/sshm_history.json",
      history := [("web", { hostName := "web", lastConnect := 1, connectCount := 1,
                            portForwarding := none })] }
    []).2 (by decide) (by decide)
  simpa using h

/-- C3: when the `sed` rewrite of the config file would be empty,
`sshm_delete` fails, leaves the config file byte-for-byte unchanged
(restored from the pre-write backup) and leaves no backup or temp file
behind; when the rewrite is non-empty the new content replaces the old and
the backup is removed. -/
theorem sshm_delete_empty_guard :
    ∀ (content : List String) (host : String), host ≠ "" →
      (sedDeleteBlock host content = [] →
        sshmDelete content host =
          { configContent := content, backupLeft := false, tmpLeft := false, failed := true })
      ∧ (sedDeleteBlock host content ≠ [] →
        sshmDelete content host =
          { configContent := sedDeleteBlock host content, backupLeft := false,
            tmpLeft := false, failed := false }) := by
  intro content host hh
  constructor
  · intro he
    simp [sshmDelete, hh, he]
  · intro he
    simp [sshmDelete, hh, he]

/-- C3, witness: a config holding a single block is not emptied (the call
fails and the file is unchanged), and deleting one of two blocks succeeds. -/
theorem sshm_delete_empty_guard_witness :
    sshmDelete ["Host a", "  HostName x"] "a" =
      { configContent := ["Host a", "  HostName x"], backupLeft := false,
        tmpLeft := false, failed := true }
    ∧ sshmDelete ["Host a", "  HostName x", "", "Host b"] "a" =
      { configContent := ["Host b"], backupLeft := false, tmpLeft := false, failed := false } := by
  constructor
  · exact (sshm_delete_empty_guard ["Host a", "  HostName x"] "a" (by decide)).1 (by decide)
  · exact (sshm_delete_empty_guard ["Host a", "  HostName x", "", "Host b"] "a"
      (by decide)).2 (by decide)

/-- C7: `RecordConnection` creates a fresh entry with count 1, increments an
existing entry by exactly 1 setting `lastConnect = now`, leaves every other
entry unchanged, persists the whole document, and recording twice on a fresh
identifier yields count 2 with the second timestamp. -/
theorem record_connection_upsert :
    (∀ (m : HistMap) (id : String) (now : Nat),
        m.lookup id = none →
        (recordConnectionMap m id now).lookup id =
          some { hostName := id, lastConnect := now, connectCount := 1, portForwarding := none })
    ∧ (∀ (m : HistMap) (id : String) (now : Nat) (c : ConnectionInfo),
        m.lookup id = some c →
        (recordConnectionMap m id now).lookup id =
          some { c with lastConnect := now, connectCount := c.connectCount + 1 })
    ∧ (∀ (m : HistMap) (id other : String) (now : Nat), other ≠ id →
        (recordConnectionMap m id now).lookup other = m.lookup other)
    ∧ (∀ (fs : FS) (hm : HistoryManager) (id : String) (now : Nat),
        (RecordConnection fs hm id now).2.1.history = recordConnectionMap hm.history id now
        ∧ (fs.failMkdir.contains (filepathDir hm.historyPath) = false →
           fs.failWrite.contains hm.historyPath = false →
           (RecordConnection fs hm id now).2.2.files.lookup hm.historyPath =
             some (.doc (recordConnectionMap hm.history id now))))
    ∧ (∀ (m : HistMap) (id : String) (t1 t2 : Nat), m.lookup id = none →
        GetConnectionCount (recordConnectionMap (recordConnectionMap m id t1) id t2) id = 2
        ∧ GetLastConnectionTime (recordConnectionMap (recordConnectionMap m id t1) id t2) id =
            some t2) := by
  refine ⟨?_, ?_, ?_, ?_, ?_⟩
  · intro m id now h
    simp [recordConnectionMap, h, lookup_setAssoc_self]
  · intro m id now c h
    simp [recordConnectionMap, h, lookup_setAssoc_self]
  · intro m id other now h
    unfold recordConnectionMap
    cases hl : m.lookup id with
    | none => simp [lookup_setAssoc_ne _ _ _ _ h]
    | some c => simp [lookup_setAssoc_ne _ _ _ _ h]
  · intro fs hm id now
    refine ⟨rfl, fun hmk hwr => ?_⟩
    exact (saveHistory_success fs
      { hm with history := recordConnectionMap hm.history id now } hmk hwr).2.1
  · intro m id t1 t2 h
    have h1 : (recordConnectionMap m id t1).lookup id =
        some { hostName := id, lastConnect := t1, connectCount := 1, portForwarding := none } := by
      simp [recordConnectionMap, h, lookup_setAssoc_self]
    have h2 : (recordConnectionMap (recordConnectionMap m id t1) id t2).lookup id =
        some { hostName := id, lastConnect := t2, connectCount := 2, portForwarding := none } := by
      conv_lhs => rw [recordConnectionMap, h1]
      exact lookup_setAssoc_self _ _ _
    constructor
    · simp [GetConnectionCount, h2]
    · simp [GetLastConnectionTime, h2]

/-- C7, witness. -/
theorem record_connection_upsert_witness :
    GetConnectionCount (recordConnectionMap (recordConnectionMap [] "web" 10) "web" 20) "web" = 2
    ∧ GetLastConnectionTime (recordConnectionMap (recordConnectionMap [] "web" 10) "web" 20)
        "web" = some 20 := by
  exact record_connection_upsert.2.2.2.2 [] "web" 10 20 (by decide)

theorem string_eq_empty_of_data {s : String} (h : s.data = []) : s = "" :=
  String.ext (by simpa using h)

theorem string_data_ne_nil {s : String} (h : s ≠ "") : s.data ≠ [] :=
  fun hd => h (string_eq_empty_of_data hd)

theorem splitAtFirstChar_of_not_mem {c : Char} {a : List Char} (b : List Char) (h : c ∉ a) :
    splitAtFirstChar c (a ++ c :: b) = some (a, b) := by
  induction a with
  | nil => simp [splitAtFirstChar]
  | cons x xs ih =>
    have hx : ¬x = c := by rintro rfl; exact h (List.mem_cons_self x xs)
    have hxs : c ∉ xs := fun hm => h (List.mem_cons_of_mem x hm)
    simp [splitAtFirstChar, hx, ih hxs]

theorem splitAtLastChar_of_not_mem {c : Char} (a : List Char) {b : List Char} (h : c ∉ b) :
    splitAtLastChar c (a ++ c :: b) = some (a, b) := by
  have hrev : (a ++ c :: b).reverse = b.reverse ++ c :: a.reverse := by
    simp [List.reverse_append, List.append_assoc]
  have hb : c ∉ b.reverse := by simpa using h
  unfold splitAtLastChar
  rw [hrev, splitAtFirstChar_of_not_mem a.reverse hb]
  simp

theorem at_char_data : ("@" : String).data = ['@'] := rfl

theorem colon_char_data : (":" : String).data = [':'] := rfl

theorem generateManualHostID_data (conn : ManualConnection) :
    (generateManualHostID conn).data =
      "manual:".data ++ ((if conn.user = "" then "default" else conn.user).data
        ++ '@' :: (conn.hostname.data ++ ':' ::
            (if conn.port = "" then "22" else conn.port).data)) := by
  simp [generateManualHostID, String.data_append, at_char_data, colon_char_data,
    List.append_assoc]

theorem isManualConnection_generateManualHostID (conn : ManualConnection) :
    IsManualConnection (generateManualHostID conn) = true := by
  unfold IsManualConnection
  rw [generateManualHostID_data conn, Bool.and_eq_true]
  have h7 : ("manual:".data).length = 7 := rfl
  constructor
  · rw [decide_eq_true_eq]
    simp [List.length_append]
  · rw [← h7, List.take_left]
    simp

/-- C9: `IsManualConnection` holds of every identifier produced by
`generateManualHostID`, and fails for every string that does not start with
the reserved prefix. -/
theorem is_manual_iff_reserved_form :
    (∀ conn : ManualConnection, conn.hostname ≠ "" →
        IsManualConnection (generateManualHostID conn) = true)
    ∧ (∀ s : String, goStartsWith s "manual:" = false → IsManualConnection s = false) := by
  constructor
  · intro conn _
    exact isManualConnection_generateManualHostID conn
  · intro s hs
    cases him : IsManualConnection s with
    | false => rfl
    | true =>
      exfalso
      have h7 : ("manual:".data).length = 7 := rfl
      have him2 : 7 < s.data.length ∧ s.data.take 7 = "manual:".data := by
        simpa [IsManualConnection] using him
      have ht : s.data.take 7 = "manual:".data := him2.2
      have hpre : "manual:".data <+: s.data :=
        List.prefix_iff_eq_take.mpr (by rw [h7, ht])
      have : "manual:".data.isPrefixOf s.data = true := List.isPrefixOf_iff_prefix.mpr hpre
      rw [goStartsWith] at hs
      rw [this] at hs
      exact Bool.true_eq_false.mp hs

/-- C9, witness. -/
theorem is_manual_iff_reserved_form_witness :
    IsManualConnection (generateManualHostID
        { user := "", hostname := "db", port := "", identity := "" }) = true
    ∧ IsManualConnection "web" = false := by
  constructor
  · exact is_manual_iff_reserved_form.1
      { user := "", hostname := "db", port := "", identity := "" } (by decide)
  · exact is_manual_iff_reserved_form.2 "web" (by decide)

/-- C2, counterexample: the claim quantifies over every `ManualConnection`
with `'@'`-free user and non-empty hostname, but a port containing `':'`
breaks the round trip — the decoder splits at the last `':'`, so part of the
port is folded into the hostname. -/
theorem decode_encode_counterexample :
    ParseManualConnectionID (generateManualHostID
        { user := "u", hostname := "h", port := "1:2", identity := "" }) =
      some ("u", "h:1", "2")
    ∧ ("u", "h:1", "2") ≠ (("u", "h", "1:2") : String × String × String) := by
  refine ⟨by decide, by decide⟩

/-- C2, amended: for every `ManualConnection` whose user contains no `'@'`,
whose port contains no `':'`, and whose hostname is non-empty,
`ParseManualConnectionID (generateManualHostID conn)` succeeds and returns
the user (defaulted to `"default"` when empty), the hostname, and the port
(defaulted to `"22"` when empty). -/
theorem decode_encode_roundtrip (conn : ManualConnection)
    (hu : goContainsChar conn.user '@' = false)
    (hp : goContainsChar conn.port ':' = false)
    (_hh : conn.hostname ≠ "") :
    ParseManualConnectionID (generateManualHostID conn) =
      some (if conn.user = "" then "default" else conn.user,
            conn.hostname,
            if conn.port = "" then "22" else conn.port) := by
  have hU : '@' ∉ (if conn.user = "" then "default" else conn.user).data := by
    by_cases h0 : conn.user = ""
    · rw [if_pos h0]; decide
    · rw [if_neg h0]
      simpa [goContainsChar, List.elem_eq_mem] using hu
  have hC : ':' ∉ (if conn.port = "" then "22" else conn.port).data := by
    by_cases h0 : conn.port = ""
    · rw [if_pos h0]; decide
    · rw [if_neg h0]
      simpa [goContainsChar, List.elem_eq_mem] using hp
  have h7 : ("manual:".data).length = 7 := rfl
  have hdrop : (generateManualHostID conn).data.drop 7 =
      (if conn.user = "" then "default" else conn.user).data
        ++ '@' :: (conn.hostname.data ++ ':' ::
            (if conn.port = "" then "22" else conn.port).data) := by
    rw [generateManualHostID_data conn, ← h7, List.drop_left]
  have hassoc : (if conn.user = "" then "default" else conn.user).data
        ++ '@' :: (conn.hostname.data ++ ':' ::
            (if conn.port = "" then "22" else conn.port).data) =
      ((if conn.user = "" then "default" else conn.user).data ++ '@' :: conn.hostname.data)
        ++ ':' :: (if conn.port = "" then "22" else conn.port).data := by
    simp [List.append_assoc]
  simp only [ParseManualConnectionID, isManualConnection_generateManualHostID, if_true, hdrop,
    hassoc, splitAtLastChar_of_not_mem _ hC, splitAtFirstChar_of_not_mem _ hU]

/-- C2, amended, witness. -/
theorem decode_encode_roundtrip_witness :
    ParseManualConnectionID (generateManualHostID
        { user := "alice", hostname := "db", port := "", identity := "" }) =
      some ("alice", "db", "22") := by
  have h := decode_encode_roundtrip
    { user := "alice", hostname := "db", port := "", identity := "" }
    (by decide) (by decide) (by decide)
  simpa using h

theorem goStartsWith_dash_of_dashP {s : String} (h : goStartsWith s "-p" = true) :
    goStartsWith s "-" = true := by
  unfold goStartsWith at h ⊢
  have hp : "-p".data <+: s.data := List.isPrefixOf_iff_prefix.mp h
  have hd : "-".data <+: s.data := List.IsPrefix.trans (by decide) hp
  exact List.isPrefixOf_iff_prefix.mpr hd

theorem isManualLoop_iff (args : List String) :
    isManualLoop args = true ↔
      ∃ t ∈ args, goStartsWith t "-p" = true ∨ goContainsChar t '@' = true := by
  induction args with
  | nil => simp [isManualLoop]
  | cons a rest ih =>
    by_cases h1 : a = "-p" ∨ goStartsWith a "-p" = true
    · have hq : goStartsWith a "-p" = true := by
        rcases h1 with h1 | h1
        · subst h1; decide
        · exact h1
      simp [isManualLoop, h1, hq]
    · push_neg at h1
      by_cases h2 : goContainsChar a '@' = true
      · simp [isManualLoop, h1.1, h1.2, h2]
      · have h2f : goContainsChar a '@' = false := by
          cases hq : goContainsChar a '@'
          · rfl
          · exact absurd hq h2
        have h1f : goStartsWith a "-p" = false := by
          cases hq : goStartsWith a "-p"
          · rfl
          · exact absurd hq h1.2
        simp [isManualLoop, h1.1, h1f, h2f, ih]

/-- C10: `IsManualSSHCommand` holds precisely when some token starts with
`"-p"` or contains `'@'`; in particular a single bare hostname (or an
`-i key host` invocation) is classified as not-manual even though
`ParseSSHArgs` accepts it, so the two classifiers disagree. -/
theorem manual_classifiers_disagree :
    (∀ args : List String,
        IsManualSSHCommand args = true ↔
          ∃ t ∈ args, goStartsWith t "-p" = true ∨ goContainsChar t '@' = true)
    ∧ (∀ (cu : Option String) (h : String),
        goStartsWith h "-" = false → goContainsChar h '@' = false → h ≠ "" →
        IsManualSSHCommand [h] = false ∧ (ParseSSHArgs cu [h]).isSome = true)
    ∧ (IsManualSSHCommand ["-i", "key", "host"] = false
       ∧ ParseSSHArgs (some "me") ["-i", "key", "host"] =
           some { user := "me", hostname := "host", port := "22", identity := "key" }) := by
  refine ⟨?_, ?_, ?_, ?_⟩
  · intro args
    cases args with
    | nil => simp [IsManualSSHCommand]
    | cons a rest => simpa [IsManualSSHCommand] using isManualLoop_iff (a :: rest)
  · intro cu h hd hat hne
    have hne_p : ¬h = "-p" := by rintro rfl; exact absurd hd (by decide)
    have hsw : goStartsWith h "-p" = false := by
      cases hq : goStartsWith h "-p"
      · rfl
      · rw [goStartsWith_dash_of_dashP hq] at hd; cases hd
    have hne_i : ¬h = "-i" := by rintro rfl; exact absurd hd (by decide)
    have hne_F : ¬h = "-F" := by rintro rfl; exact absurd hd (by decide)
    have hne_c : ¬h = "-c" := by rintro rfl; exact absurd hd (by decide)
    have hne_cfg : ¬h = "--config" := by rintro rfl; exact absurd hd (by decide)
    constructor
    · simp [IsManualSSHCommand, isManualLoop, hne_p, hsw, hat]
    · simp [ParseSSHArgs, parseLoop, hne_p, hsw, hne_i, hne_F, hne_c, hne_cfg, hd, hat, hne]
  · decide
  · simp [ParseSSHArgs, parseLoop, goStartsWith, goContainsChar]

/-- C10, witness. -/
theorem manual_classifiers_disagree_witness :
    IsManualSSHCommand ["myhost"] = false
    ∧ (ParseSSHArgs (some "me") ["myhost"]).isSome = true := by
  exact manual_classifiers_disagree.2.1 (some "me") "myhost" (by decide) (by decide) (by decide)

theorem parseLoop_port_of_no_dashP :
    ∀ (conn : ManualConnection) (args : List String),
      (∀ t ∈ args, goStartsWith t "-p" = false) →
      ∀ c, parseLoop conn args = some c → c.port = conn.port := by
  intro conn args
  induction conn, args using parseLoop.induct with
  | case1 conn =>
    intro _ c hc
    simp only [parseLoop] at hc
    cases hc
    rfl
  | case2 conn v rest2 ih =>
    intro hno
    exact absurd (hno "-p" (by simp)) (by decide)
  | case3 conn =>
    intro hno
    exact absurd (hno "-p" (by simp)) (by decide)
  | case4 conn arg rest h1 h2 ih =>
    intro hno
    exact absurd (hno arg (by simp)) (by simp [h2])
  | case5 conn v rest2 h1 h2 ih =>
    intro hno c hc
    simp [parseLoop] at hc
    exact ih (fun t ht => hno t (by simp [ht])) c hc
  | case6 conn h1 h2 =>
    intro _ c hc
    simp [parseLoop, h2] at hc
    simp [hc]
  | case7 conn arg rest h1 h2 h3 h4 =>
    intro _ c hc
    rw [parseLoop.eq_def] at hc
    simp [h1, h2, h3, h4] at hc
  | case8 conn arg h1 h2 h3 h4 h5 v rest2 h6 ih =>
    intro hno c hc
    simp [parseLoop, h1, h2, h3, h4, h5, h6] at hc
    exact ih (fun t ht => hno t (List.mem_cons_of_mem arg ht)) c hc
  | case9 conn arg h1 h2 h3 h4 h5 v rest2 h6 ih =>
    intro hno c hc
    simp [parseLoop, h1, h2, h3, h4, h5, h6] at hc
    exact ih (fun t ht => hno t (by simp [ht])) c hc
  | case10 conn arg h1 h2 h3 h4 h5 =>
    intro _ c hc
    simp [parseLoop, h1, h2, h3, h4, h5] at hc
    simp [← hc]
  | case11 conn arg rest h1 h2 h3 h4 h5 h6 userChars hostChars h7 ih =>
    intro hno c hc
    rw [parseLoop.eq_def] at hc
    simp [h1, h2, h3, h4, h5, h6, h7] at hc
    exact ih (fun t ht => hno t (by simp [ht])) c hc
  | case12 conn arg rest h1 h2 h3 h4 h5 h6 h7 ih =>
    intro hno c hc
    rw [parseLoop.eq_def] at hc
    simp [h1, h2, h3, h4, h5, h6, h7] at hc
    exact ih (fun t ht => hno t (by simp [ht])) c hc
  | case13 conn arg rest h1 h2 h3 h4 h5 h6 h7 ih =>
    intro hno c hc
    rw [parseLoop.eq_def] at hc
    simp [h1, h2, h3, h4, h5, h6, h7] at hc
    exact ih (fun t ht => hno t (by simp [ht])) c hc
  | case14 conn arg rest h1 h2 h3 h4 h5 h6 h7 ih =>
    intro hno c hc
    rw [parseLoop.eq_def] at hc
    simp [h1, h2, h3, h4, h5, h6, h7] at hc
    exact ih (fun t ht => hno t (by simp [ht])) c hc

theorem parseLoop_user_of_no_at :
    ∀ (conn : ManualConnection) (args : List String),
      (∀ t ∈ args, goContainsChar t '@' = false) →
      ∀ c, parseLoop conn args = some c → c.user = conn.user := by
  intro conn args
  induction conn, args using parseLoop.induct with
  | case1 conn =>
    intro _ c hc
    simp only [parseLoop] at hc
    cases hc
    rfl
  | case2 conn v rest2 ih =>
    intro hno c hc
    simp [parseLoop] at hc
    exact ih (fun t ht => hno t (by simp [ht])) c hc
  | case3 conn =>
    intro _ c hc
    simp [parseLoop] at hc
    simp [hc]
  | case4 conn arg rest h1 h2 ih =>
    intro hno c hc
    rw [parseLoop.eq_def] at hc
    simp [h1, h2] at hc
    exact ih (fun t ht => hno t (by simp [ht])) c hc
  | case5 conn v rest2 h1 h2 ih =>
    intro hno c hc
    simp [parseLoop] at hc
    exact ih (fun t ht => hno t (by simp [ht])) c hc
  | case6 conn h1 h2 =>
    intro _ c hc
    simp [parseLoop, h2] at hc
    simp [hc]
  | case7 conn arg rest h1 h2 h3 h4 =>
    intro _ c hc
    rw [parseLoop.eq_def] at hc
    simp [h1, h2, h3, h4] at hc
  | case8 conn arg h1 h2 h3 h4 h5 v rest2 h6 ih =>
    intro hno c hc
    simp [parseLoop, h1, h2, h3, h4, h5, h6] at hc
    exact ih (fun t ht => hno t (List.mem_cons_of_mem arg ht)) c hc
  | case9 conn arg h1 h2 h3 h4 h5 v rest2 h6 ih =>
    intro hno c hc
    simp [parseLoop, h1, h2, h3, h4, h5, h6] at hc
    exact ih (fun t ht => hno t (by simp [ht])) c hc
  | case10 conn arg h1 h2 h3 h4 h5 =>
    intro _ c hc
    simp [parseLoop, h1, h2, h3, h4, h5] at hc
    simp [hc]
  | case11 conn arg rest h1 h2 h3 h4 h5 h6 userChars hostChars h7 ih =>
    intro hno
    exact absurd (hno arg (by simp)) (by simp [h6])
  | case12 conn arg rest h1 h2 h3 h4 h5 h6 h7 ih =>
    intro hno
    exact absurd (hno arg (by simp)) (by simp [h6])
  | case13 conn arg rest h1 h2 h3 h4 h5 h6 h7 ih =>
    intro hno c hc
    rw [parseLoop.eq_def] at hc
    simp [h1, h2, h3, h4, h5, h6, h7] at hc
    exact ih (fun t ht => hno t (by simp [ht])) c hc
  | case14 conn arg rest h1 h2 h3 h4 h5 h6 h7 ih =>
    intro hno c hc
    rw [parseLoop.eq_def] at hc
    simp [h1, h2, h3, h4, h5, h6, h7] at hc
    exact ih (fun t ht => hno t (by simp [ht])) c hc

/-- C8, counterexample: a `-F` token consumed as the value of a preceding
`-p` flag does not cause rejection, so a list containing `"-F"` can still
parse successfully (with the absurd port `"-F"`). -/
theorem parse_args_reject_counterexample :
    ParseSSHArgs (some "me") ["-p", "-F", "h"] =
      some { user := "me", hostname := "h", port := "-F", identity := "" }
    ∧ "-F" ∈ ["-p", "-F", "h"] := by
  constructor
  · simp [ParseSSHArgs, parseLoop, goStartsWith, goContainsChar]
  · simp

/-- C8, amended: `ParseSSHArgs` rejects as soon as it encounters a `-F`,
`-c` or `--config` token in flag position (a token consumed as the value of
a preceding `-p` or `-i` does not reject); it rejects when no hostname is
resolved; on success the hostname is non-empty, the port is `"22"` when no
`-p`-shaped token occurs, and the user is the invoking OS user when no
`'@'`-token occurs. -/
theorem parse_args_reject_and_defaults :
    (∀ (conn : ManualConnection) (rest : List String),
        parseLoop conn ("-F" :: rest) = none
        ∧ parseLoop conn ("-c" :: rest) = none
        ∧ parseLoop conn ("--config" :: rest) = none)
    ∧ (∀ (cu : Option String) (args : List String) (c : ManualConnection),
        ParseSSHArgs cu args = some c → c.hostname ≠ "")
    ∧ (∀ (cu : Option String) (args : List String) (c : ManualConnection),
        ParseSSHArgs cu args = some c →
        (∀ t ∈ args, goStartsWith t "-p" = false) → c.port = "22")
    ∧ (∀ (u : String) (args : List String) (c : ManualConnection),
        ParseSSHArgs (some u) args = some c →
        (∀ t ∈ args, goContainsChar t '@' = false) → c.user = u) := by
  refine ⟨?_, ?_, ?_, ?_⟩
  · intro conn rest
    refine ⟨?_, ?_, ?_⟩ <;> (rw [parseLoop.eq_def]; simp [goStartsWith])
  · intro cu args c h
    match args with
    | [] => simp [ParseSSHArgs] at h
    | a :: l =>
      simp only [ParseSSHArgs] at h
      cases hp : parseLoop
          { user := cu.getD "", hostname := "", port := "22", identity := "" } (a :: l) with
      | none => rw [hp] at h; cases h
      | some c0 =>
        rw [hp] at h
        dsimp only at h
        by_cases h0 : c0.hostname = ""
        · rw [if_pos h0] at h; cases h
        · rw [if_neg h0] at h
          cases h
          exact h0
  · intro cu args c h hno
    match args with
    | [] => simp [ParseSSHArgs] at h
    | a :: l =>
      simp only [ParseSSHArgs] at h
      cases hp : parseLoop
          { user := cu.getD "", hostname := "", port := "22", identity := "" } (a :: l) with
      | none => rw [hp] at h; cases h
      | some c0 =>
        rw [hp] at h
        dsimp only at h
        by_cases h0 : c0.hostname = ""
        · rw [if_pos h0] at h; cases h
        · rw [if_neg h0] at h
          cases h
          exact parseLoop_port_of_no_dashP _ (a :: l) hno c hp
  · intro u args c h hno
    match args with
    | [] => simp [ParseSSHArgs] at h
    | a :: l =>
      simp only [ParseSSHArgs] at h
      cases hp : parseLoop
          { user := (some u).getD "", hostname := "", port := "22", identity := "" } (a :: l) with
      | none => rw [hp] at h; cases h
      | some c0 =>
        rw [hp] at h
        dsimp only at h
        by_cases h0 : c0.hostname = ""
        · rw [if_pos h0] at h; cases h
        · rw [if_neg h0] at h
          cases h
          exact parseLoop_user_of_no_at _ (a :: l) hno c hp

/-- C8, amended, witness. -/
theorem parse_args_reject_and_defaults_witness :
    parseLoop { user := "me", hostname := "", port := "22", identity := "" } ["-F", "x"] = none
    ∧ ({ user := "me", hostname := "host", port := "22", identity := "" }
        : ManualConnection).hostname ≠ ""
    ∧ ({ user := "me", hostname := "host", port := "22", identity := "" }
        : ManualConnection).port = "22"
    ∧ ({ user := "me", hostname := "host", port := "22", identity := "" }
        : ManualConnection).user = "me" := by
  refine ⟨?_, ?_, ?_, ?_⟩
  · exact (parse_args_reject_and_defaults.1
      { user := "me", hostname := "", port := "22", identity := "" } ["x"]).1
  · exact parse_args_reject_and_defaults.2.1 (some "me") ["host"]
      { user := "me", hostname := "host", port := "22", identity := "" }
      (by simp [ParseSSHArgs, parseLoop, goStartsWith, goContainsChar])
  · exact parse_args_reject_and_defaults.2.2.1 (some "me") ["host"]
      { user := "me", hostname := "host", port := "22", identity := "" }
      (by simp [ParseSSHArgs, parseLoop, goStartsWith, goContainsChar])
      (by decide)
  · exact parse_args_reject_and_defaults.2.2.2 "me" ["host"]
      { user := "me", hostname := "host", port := "22", identity := "" }
      (by simp [ParseSSHArgs, parseLoop, goStartsWith, goContainsChar])
      (by decide)

theorem migrate_log_append (env : Env) (fs : FS) (p : String) :
    ∃ t, (migrateOldHistoryFile env fs p).2.log = fs.log ++ t := by
  unfold migrateOldHistoryFile
  by_cases h1 : fs.statExists p = true
  · rw [if_pos h1]
    exact ⟨[], by simp⟩
  · rw [if_neg h1]
    cases henv : env.sshDir with
    | none => exact ⟨[], by simp⟩
    | some d =>
      dsimp only
      by_cases h2 : fs.statExists (filepathJoin d "sshm_history.json") = false
      · rw [if_pos h2]
        exact ⟨[], by simp⟩
      · rw [if_neg h2]
        cases hr : fs.readFile (filepathJoin d "sshm_history.json") with
        | error e => exact ⟨[], by simp⟩
        | ok data =>
          dsimp only
          by_cases hw : p ∈ fs.failWrite
          · rw [show fs.writeFile p data 0o644 = (.error .ioErr,
                { fs with log := fs.log ++ [FsOp.write p 0o644] }) from by
              simp [FS.writeFile, hw]]
            exact ⟨[FsOp.write p 0o644], by simp⟩
          · rw [show fs.writeFile p data 0o644 = (.ok (),
                { fs with log := fs.log ++ [FsOp.write p 0o644],
                          files := setAssoc fs.files p data }) from by
              simp [FS.writeFile, hw]]
            dsimp only
            by_cases hv : filepathJoin d "sshm_history.json" ∈ fs.failRemove
            · refine ⟨[FsOp.write p 0o644,
                FsOp.remove (filepathJoin d "sshm_history.json")], ?_⟩
              simp [FS.removeFile, hv]
            · refine ⟨[FsOp.write p 0o644,
                FsOp.remove (filepathJoin d "sshm_history.json")], ?_⟩
              simp [FS.removeFile, hv]

/-- C5, counterexample: the legacy-migration write of the history document
uses permissions 0644, not 0600.  Concretely, with the old file present and
the new file absent, the migration's operation log records a write of the
history path with mode 0o644. -/
theorem history_write_mode_counterexample :
    (migrateOldHistoryFile
        { sshmConfigDir := some "/home/u/.config/sshm", sshDir := some "/home/u/.ssh" }
        (fsWith [("/home/u/.ssh/sshm_history.json", .doc [])])
        "/home/u/.config/sshm/sshm_history.json").2.log =
      [FsOp.write "/home/u/.config/sshm/sshm_history.json" 0o644,
       FsOp.remove "/home/u/.ssh/sshm_history.json"]
    ∧ (0o644 : Nat) ≠ 0o600 := by
  refine ⟨by decide, by decide⟩

/-- C5, amended: `saveHistory` writes the document with 0600 after creating
its directory with 0700, and `NewHistoryManager` creates the config
directory with 0755 — but the legacy-file migration performed at store open
writes the history document with 0644. -/
theorem history_write_modes :
    (∀ (fs : FS) (hm : HistoryManager),
        (saveHistory fs hm).2.log =
          if fs.failMkdir.contains (filepathDir hm.historyPath) then
            fs.log ++ [FsOp.mkdir (filepathDir hm.historyPath) 0o700]
          else
            fs.log ++ [FsOp.mkdir (filepathDir hm.historyPath) 0o700,
                       FsOp.write hm.historyPath 0o600])
    ∧ (∀ (env : Env) (fs : FS) (configDir : String),
        env.sshmConfigDir = some configDir →
        FsOp.mkdir configDir 0o755 ∈ (NewHistoryManager env fs).2.log)
    ∧ (∀ (env : Env) (fs : FS) (newPath sshDir : String),
        env.sshDir = some sshDir →
        fs.statExists newPath = false →
        fs.statExists (filepathJoin sshDir "sshm_history.json") = true →
        fs.failRead.contains (filepathJoin sshDir "sshm_history.json") = false →
        FsOp.write newPath 0o644 ∈ (migrateOldHistoryFile env fs newPath).2.log) := by
  refine ⟨?_, ?_, ?_⟩
  · intro fs hm
    by_cases hmk : fs.failMkdir.contains (filepathDir hm.historyPath)
    · have hmk2 : filepathDir hm.historyPath ∈ fs.failMkdir := by simpa using hmk
      simp [saveHistory, FS.mkdirAll, FS.writeFile, hmk, hmk2]
    · have hmk2 : filepathDir hm.historyPath ∉ fs.failMkdir := by simpa using hmk
      by_cases hw : hm.historyPath ∈ fs.failWrite
      · simp [saveHistory, FS.mkdirAll, FS.writeFile, hmk, hmk2, hw]
      · simp [saveHistory, FS.mkdirAll, FS.writeFile, hmk, hmk2, hw]
  · intro env fs configDir henv
    unfold NewHistoryManager
    rw [henv]
    unfold FS.mkdirAll
    dsimp only
    by_cases hmk : fs.failMkdir.contains configDir = true
    · rw [if_pos hmk]
      simp
    · rw [if_neg hmk]
      dsimp only
      obtain ⟨t, ht⟩ := migrate_log_append env
        { fs with log := fs.log ++ [FsOp.mkdir configDir 0o755] }
        (filepathJoin configDir "sshm_history.json")
      have hmem : FsOp.mkdir configDir 0o755 ∈ (migrateOldHistoryFile env
          { fs with log := fs.log ++ [FsOp.mkdir configDir 0o755] }
          (filepathJoin configDir "sshm_history.json")).2.log := by
        rw [ht]
        simp
      split
      · simpa using hmem
      · split <;> simpa using hmem
  · intro env fs newPath sshDir henv hnew hold hrd
    unfold migrateOldHistoryFile
    rw [if_neg (by simp [hnew]), henv]
    dsimp only
    rw [if_neg (by simp [hold])]
    have hrd2 : filepathJoin sshDir "sshm_history.json" ∉ fs.failRead := by simpa using hrd
    obtain ⟨d, hd⟩ : ∃ d, fs.files.lookup (filepathJoin sshDir "sshm_history.json") = some d := by
      have hx := hold
      unfold FS.statExists at hx
      exact Option.isSome_iff_exists.mp hx
    rw [show fs.readFile (filepathJoin sshDir "sshm_history.json") = .ok d from by
      simp [FS.readFile, hrd2, hd]]
    dsimp only
    by_cases hw : newPath ∈ fs.failWrite
    · rw [show fs.writeFile newPath d 0o644 = (.error .ioErr,
          { fs with log := fs.log ++ [FsOp.write newPath 0o644] }) from by
        simp [FS.writeFile, hw]]
      simp
    · rw [show fs.writeFile newPath d 0o644 = (.ok (),
          { fs with log := fs.log ++ [FsOp.write newPath 0o644],
                    files := setAssoc fs.files newPath d }) from by
        simp [FS.writeFile, hw]]
      dsimp only
      by_cases hv : filepathJoin sshDir "sshm_history.json" ∈ fs.failRemove
      · simp [FS.removeFile, hv]
      · simp [FS.removeFile, hv]

/-- C5, amended, witness. -/
theorem history_write_modes_witness :
    FsOp.mkdir "/cfg" 0o755 ∈
      (NewHistoryManager { sshmConfigDir := some "/cfg", sshDir := some "/s" } (fsWith [])).2.log
    ∧ FsOp.write "/new/sshm_history.json" 0o644 ∈
        (migrateOldHistoryFile { sshmConfigDir := some "/cfg", sshDir := some "/s" }
          (fsWith [("/s/sshm_history.json", .doc [])]) "/new/sshm_history.json").2.log := by
  constructor
  · exact history_write_modes.2.1 { sshmConfigDir := some "/cfg", sshDir := some "/s" }
      (fsWith []) "/cfg" rfl
  · exact history_write_modes.2.2 { sshmConfigDir := some "/cfg", sshDir := some "/s" }
      (fsWith [("/s/sshm_history.json", .doc [])]) "/new/sshm_history.json" "/s" rfl
      (by decide) (by decide) (by decide)

theorem mkdirAll_snd (fs : FS) (p : String) (mode : Nat) :
    (fs.mkdirAll p mode).2 = { fs with log := fs.log ++ [FsOp.mkdir p mode] } := by
  unfold FS.mkdirAll
  split <;> rfl

theorem migrate_preserves_failRead (env : Env) (fs : FS) (p : String) :
    (migrateOldHistoryFile env fs p).2.failRead = fs.failRead := by
  unfold migrateOldHistoryFile
  by_cases h1 : fs.statExists p = true
  · rw [if_pos h1]
  · rw [if_neg h1]
    cases henv : env.sshDir with
    | none => rfl
    | some d =>
      dsimp only
      by_cases h2 : fs.statExists (filepathJoin d "sshm_history.json") = false
      · rw [if_pos h2]
      · rw [if_neg h2]
        cases hr : fs.readFile (filepathJoin d "sshm_history.json") with
        | error e => rfl
        | ok data =>
          dsimp only
          by_cases hw : p ∈ fs.failWrite
          · rw [show fs.writeFile p data 0o644 = (.error .ioErr,
                { fs with log := fs.log ++ [FsOp.write p 0o644] }) from by
              simp [FS.writeFile, hw]]
          · rw [show fs.writeFile p data 0o644 = (.ok (),
                { fs with log := fs.log ++ [FsOp.write p 0o644],
                          files := setAssoc fs.files p data }) from by
              simp [FS.writeFile, hw]]
            dsimp only
            unfold FS.removeFile
            split <;> rfl

theorem migrate_error_files (env : Env) (fs : FS) (p : String) (e : FsErr)
    (h : (migrateOldHistoryFile env fs p).1 = .error e) :
    (migrateOldHistoryFile env fs p).2.files = fs.files := by
  unfold migrateOldHistoryFile at h ⊢
  by_cases h1 : fs.statExists p = true
  · rw [if_pos h1]
  · rw [if_neg h1] at h ⊢
    cases henv : env.sshDir with
    | none => rfl
    | some d =>
      rw [henv] at h
      dsimp only at h ⊢
      by_cases h2 : fs.statExists (filepathJoin d "sshm_history.json") = false
      · rw [if_pos h2]
      · rw [if_neg h2] at h ⊢
        cases hr : fs.readFile (filepathJoin d "sshm_history.json") with
        | error e2 => rfl
        | ok data =>
          rw [hr] at h
          dsimp only at h ⊢
          by_cases hw : p ∈ fs.failWrite
          · rw [show fs.writeFile p data 0o644 = (.error .ioErr,
                { fs with log := fs.log ++ [FsOp.write p 0o644] }) from by
              simp [FS.writeFile, hw]]
          · rw [show fs.writeFile p data 0o644 = (.ok (),
                { fs with log := fs.log ++ [FsOp.write p 0o644],
                          files := setAssoc fs.files p data }) from by
              simp [FS.writeFile, hw]] at h
            simp at h

/-- C6: `NewHistoryManager` runs the legacy migration before loading: it is
a no-op when the new file exists, copies then removes the old file
otherwise, its failure never makes `NewHistoryManager` fail (the store then
starts empty), and `NewHistoryManager` fails only on directory-resolution
failure, `MkdirAll` failure, or a load failure other than not-exist. -/
theorem open_migration_and_error_policy :
    (∀ (env : Env) (fs : FS) (p : String),
        fs.statExists p = true → migrateOldHistoryFile env fs p = (.ok (), fs))
    ∧ (∀ (env : Env) (fs : FS) (p sshDir : String) (d : FileData),
        env.sshDir = some sshDir →
        fs.statExists p = false →
        fs.files.lookup (filepathJoin sshDir "sshm_history.json") = some d →
        fs.failRead.contains (filepathJoin sshDir "sshm_history.json") = false →
        fs.failWrite.contains p = false →
        fs.failRemove.contains (filepathJoin sshDir "sshm_history.json") = false →
        (migrateOldHistoryFile env fs p).1 = .ok ()
        ∧ (migrateOldHistoryFile env fs p).2.files.lookup p = some d
        ∧ (migrateOldHistoryFile env fs p).2.files.lookup
            (filepathJoin sshDir "sshm_history.json") = none)
    ∧ (∀ (env : Env) (fs : FS) (configDir : String) (e : FsErr),
        env.sshmConfigDir = some configDir →
        fs.failMkdir.contains configDir = false →
        (migrateOldHistoryFile env ((fs.mkdirAll configDir 0o755).2)
            (filepathJoin configDir "sshm_history.json")).1 = .error e →
        fs.files.lookup (filepathJoin configDir "sshm_history.json") = none →
        fs.failRead.contains (filepathJoin configDir "sshm_history.json") = false →
        (NewHistoryManager env fs).1 =
          .ok { historyPath := filepathJoin configDir "sshm_history.json", history := [] })
    ∧ (∀ (env : Env) (fs : FS), env.sshmConfigDir = none →
        (NewHistoryManager env fs).1 = .error .resolveErr)
    ∧ (∀ (env : Env) (fs : FS) (configDir : String),
        env.sshmConfigDir = some configDir →
        fs.failMkdir.contains configDir = true →
        (NewHistoryManager env fs).1 = .error .ioErr)
    ∧ (∀ (env : Env) (fs : FS) (configDir : String),
        env.sshmConfigDir = some configDir →
        fs.failMkdir.contains configDir = false →
        (∀ hm2, loadHistory
              ((migrateOldHistoryFile env ((fs.mkdirAll configDir 0o755).2)
                  (filepathJoin configDir "sshm_history.json")).2)
              { historyPath := filepathJoin configDir "sshm_history.json", history := [] } =
            .ok hm2 →
          (NewHistoryManager env fs).1 = .ok hm2)
        ∧ (∀ e, loadHistory
              ((migrateOldHistoryFile env ((fs.mkdirAll configDir 0o755).2)
                  (filepathJoin configDir "sshm_history.json")).2)
              { historyPath := filepathJoin configDir "sshm_history.json", history := [] } =
            .error e →
          isNotExistErr e = true →
          (NewHistoryManager env fs).1 =
            .ok { historyPath := filepathJoin configDir "sshm_history.json", history := [] })
        ∧ (∀ e, loadHistory
              ((migrateOldHistoryFile env ((fs.mkdirAll configDir 0o755).2)
                  (filepathJoin configDir "sshm_history.json")).2)
              { historyPath := filepathJoin configDir "sshm_history.json", history := [] } =
            .error e →
          isNotExistErr e = false →
          (NewHistoryManager env fs).1 = .error e)) := by
  have hstep : ∀ (env : Env) (fs : FS) (configDir : String),
      env.sshmConfigDir = some configDir →
      fs.failMkdir.contains configDir = false →
      (NewHistoryManager env fs) =
        (match loadHistory
            ((migrateOldHistoryFile env ((fs.mkdirAll configDir 0o755).2)
                (filepathJoin configDir "sshm_history.json")).2)
            { historyPath := filepathJoin configDir "sshm_history.json", history := [] } with
          | .ok hm2 => (.ok hm2,
              (migrateOldHistoryFile env ((fs.mkdirAll configDir 0o755).2)
                (filepathJoin configDir "sshm_history.json")).2)
          | .error e =>
            if isNotExistErr e then
              (.ok { historyPath := filepathJoin configDir "sshm_history.json", history := [] },
                (migrateOldHistoryFile env ((fs.mkdirAll configDir 0o755).2)
                  (filepathJoin configDir "sshm_history.json")).2)
            else (.error e,
              (migrateOldHistoryFile env ((fs.mkdirAll configDir 0o755).2)
                (filepathJoin configDir "sshm_history.json")).2)) := by
    intro env fs configDir henv hmk
    unfold NewHistoryManager
    rw [henv]
    unfold FS.mkdirAll
    dsimp only
    rw [if_neg (by simpa using hmk)]
  refine ⟨?_, ?_, ?_, ?_, ?_, ?_⟩
  · intro env fs p h
    simp [migrateOldHistoryFile, h]
  · intro env fs p sshDir d henv hnew hold hrd hwr hrm
    have hpne : p ≠ filepathJoin sshDir "sshm_history.json" := by
      intro hcontra
      rw [hcontra] at hnew
      unfold FS.statExists at hnew
      rw [hold] at hnew
      cases hnew
    have hrd2 : filepathJoin sshDir "sshm_history.json" ∉ fs.failRead := by simpa using hrd
    have hwr2 : p ∉ fs.failWrite := by simpa using hwr
    have hrm2 : filepathJoin sshDir "sshm_history.json" ∉ fs.failRemove := by simpa using hrm
    unfold migrateOldHistoryFile
    rw [if_neg (by simp [hnew]), henv]
    dsimp only
    rw [if_neg (by simp [FS.statExists, hold])]
    rw [show fs.readFile (filepathJoin sshDir "sshm_history.json") = .ok d from by
      simp [FS.readFile, hrd2, hold]]
    dsimp only
    rw [show fs.writeFile p d 0o644 = (.ok (),
        { fs with log := fs.log ++ [FsOp.write p 0o644],
                  files := setAssoc fs.files p d }) from by
      simp [FS.writeFile, hwr2]]
    dsimp only
    unfold FS.removeFile
    rw [if_neg (by simpa using hrm2)]
    refine ⟨rfl, ?_, ?_⟩
    · dsimp only
      rw [lookup_filterKeys (fun k => !(k == filepathJoin sshDir "sshm_history.json"))]
      rw [if_pos (by simp [hpne])]
      exact lookup_setAssoc_self _ _ _
    · dsimp only
      rw [lookup_filterKeys (fun k => !(k == filepathJoin sshDir "sshm_history.json"))]
      simp
  · intro env fs configDir e henv hmk hmig hfiles hrd
    rw [congrArg Prod.fst (hstep env fs configDir henv hmk)]
    have hfr : ((migrateOldHistoryFile env ((fs.mkdirAll configDir 0o755).2)
        (filepathJoin configDir "sshm_history.json")).2).failRead = fs.failRead := by
      rw [migrate_preserves_failRead, mkdirAll_snd]
    have hfi : ((migrateOldHistoryFile env ((fs.mkdirAll configDir 0o755).2)
        (filepathJoin configDir "sshm_history.json")).2).files = fs.files := by
      rw [migrate_error_files _ _ _ e hmig, mkdirAll_snd]
    have hload : loadHistory
        ((migrateOldHistoryFile env ((fs.mkdirAll configDir 0o755).2)
            (filepathJoin configDir "sshm_history.json")).2)
        { historyPath := filepathJoin configDir "sshm_history.json", history := [] } =
        .error .notExist := by
      unfold loadHistory FS.readFile
      rw [hfr, hfi]
      rw [if_neg (by simpa using hrd), hfiles]
    rw [hload]
    rfl
  · intro env fs h
    simp [NewHistoryManager, h]
  · intro env fs configDir henv hmk
    unfold NewHistoryManager
    rw [henv]
    unfold FS.mkdirAll
    dsimp only
    rw [if_pos (by simpa using hmk)]
  · intro env fs configDir henv hmk
    refine ⟨?_, ?_, ?_⟩
    · intro hm2 hload
      rw [congrArg Prod.fst (hstep env fs configDir henv hmk), hload]
    · intro e hload hne
      rw [congrArg Prod.fst (hstep env fs configDir henv hmk), hload]
      dsimp only
      rw [if_pos hne]
    · intro e hload hne
      rw [congrArg Prod.fst (hstep env fs configDir henv hmk), hload]
      dsimp only
      rw [if_neg (by simp [hne])]

/-- C6, witness: with a failing legacy-directory resolution the migration
errors, yet `NewHistoryManager` still succeeds with an empty map. -/
theorem open_migration_and_error_policy_witness :
    (NewHistoryManager { sshmConfigDir := some "/cfg", sshDir := none } (fsWith [])).1 =
      .ok { historyPath := "/cfg/sshm_history.json", history := [] } := by
  have h := open_migration_and_error_policy.2.2.1
    { sshmConfigDir := some "/cfg", sshDir := none } (fsWith []) "/cfg" .resolveErr
    rfl (by decide) rfl (by decide) (by decide)
  simpa using h

theorem mem_of_lookup_eq_some {β : Type} {m : List (String × β)} {k : String} {v : β}
    (h : m.lookup k = some v) : (k, v) ∈ m := by
  induction m with
  | nil => simp [List.lookup] at h
  | cons kv rest ih =>
    obtain ⟨k0, v0⟩ := kv
    rw [List.lookup] at h
    cases hq : (k == k0) with
    | true =>
      rw [hq] at h
      simp only [Option.some.injEq] at h
      have hk : k = k0 := beq_iff_eq.mp hq
      subst hk
      subst h
      exact List.mem_cons_self _ _
    | false =>
      rw [hq] at h
      exact List.mem_cons_of_mem _ (ih h)

theorem lookup_none_of_count_zero {m : HistMap}
    (hinv : ∀ kv ∈ m, 1 ≤ kv.2.connectCount) {n : String}
    (h : GetConnectionCount m n = 0) : m.lookup n = none := by
  cases hl : m.lookup n with
  | none => rfl
  | some v =>
    have hm := mem_of_lookup_eq_some hl
    have hge := hinv (n, v) hm
    simp only at hge
    unfold GetConnectionCount at h
    rw [hl] at h
    simp only at h
    omega

theorem lookup_some_of_count_ne_zero {m : HistMap} {n : String}
    (h : GetConnectionCount m n ≠ 0) : ∃ v, m.lookup n = some v := by
  cases hl : m.lookup n with
  | none =>
    exfalso
    apply h
    unfold GetConnectionCount
    rw [hl]
  | some v => exact ⟨v, rfl⟩

theorem count_le_of_lessMostUsed_false (m : HistMap) (a b : SSHHost)
    (h : lessMostUsed m b a = false) :
    GetConnectionCount m b.name ≤ GetConnectionCount m a.name := by
  simp only [lessMostUsed] at h
  by_cases e : GetConnectionCount m b.name ≠ GetConnectionCount m a.name
  · rw [if_pos e] at h
    simp at h
    omega
  · push_neg at e
    omega

theorem lessMostUsed_asymm (m : HistMap) (a b : SSHHost)
    (h : lessMostUsed m a b = true) : lessMostUsed m b a = false := by
  simp only [lessMostUsed] at h ⊢
  by_cases e : GetConnectionCount m a.name ≠ GetConnectionCount m b.name
  · rw [if_pos e] at h
    rw [if_pos (Ne.symm e)]
    simp at h ⊢
    omega
  · push_neg at e
    rw [if_neg (by simp [e])] at h
    rw [if_neg (by simp [e])]
    cases hta : GetLastConnectionTime m a.name with
    | none =>
      rw [hta] at h
      cases htb : GetLastConnectionTime m b.name with
      | none =>
        rw [htb] at h
        simp at h ⊢
        exact le_of_lt h
      | some y =>
        rw [htb] at h
        simp at h ⊢
        exact le_of_lt h
    | some x =>
      rw [hta] at h
      cases htb : GetLastConnectionTime m b.name with
      | none =>
        rw [htb] at h
        simp at h ⊢
        exact le_of_lt h
      | some y =>
        rw [htb] at h
        simp at h ⊢
        omega

theorem lessMostUsed_false_trans (m : HistMap)
    (hinv : ∀ kv ∈ m, 1 ≤ kv.2.connectCount) (a b c : SSHHost)
    (h1 : lessMostUsed m b a = false) (h2 : lessMostUsed m c b = false) :
    lessMostUsed m c a = false := by
  have hba := count_le_of_lessMostUsed_false m a b h1
  have hcb := count_le_of_lessMostUsed_false m b c h2
  simp only [lessMostUsed] at h1 h2 ⊢
  by_cases e : GetConnectionCount m c.name ≠ GetConnectionCount m a.name
  · rw [if_pos e]
    simp
    omega
  · push_neg at e
    rw [if_neg (by simp [e])]
    have hEba : GetConnectionCount m b.name = GetConnectionCount m a.name := by omega
    have hEcb : GetConnectionCount m c.name = GetConnectionCount m b.name := by omega
    rw [if_neg (by simp [hEba])] at h1
    rw [if_neg (by simp [hEcb])] at h2
    by_cases hk : GetConnectionCount m a.name = 0
    · have hla : m.lookup a.name = none := lookup_none_of_count_zero hinv hk
      have hlb : m.lookup b.name = none := lookup_none_of_count_zero hinv (by omega)
      have hlc : m.lookup c.name = none := lookup_none_of_count_zero hinv (by omega)
      simp only [GetLastConnectionTime, hla, hlb, hlc, Option.map_none'] at h1 h2 ⊢
      simp at h1 h2 ⊢
      exact le_trans h1 h2
    · obtain ⟨va, hva⟩ := lookup_some_of_count_ne_zero hk
      obtain ⟨vb, hvb⟩ := lookup_some_of_count_ne_zero (m := m) (n := b.name) (by omega)
      obtain ⟨vc, hvc⟩ := lookup_some_of_count_ne_zero (m := m) (n := c.name) (by omega)
      simp only [GetLastConnectionTime, hva, hvb, hvc, Option.map_some'] at h1 h2 ⊢
      simp at h1 h2 ⊢
      omega

/-- C4, counterexample: for two hosts with equal counts and equal
`lastConnect`, the comparator orders neither before the other (no name
tie-break is reached), so the sort keeps the input order `[b, a]` rather
than producing the claimed ascending-by-name order `[a, b]`.  (Go's
`sort.Slice` on a two-element slice performs no swap when the comparator is
false for both orders.) -/
theorem sort_by_frequency_counterexample :
    SortHostsByMostUsed
        [("a", { hostName := "a", lastConnect := 500, connectCount := 1, portForwarding := none }),
         ("b", { hostName := "b", lastConnect := 500, connectCount := 1, portForwarding := none })]
        [{ name := "b" }, { name := "a" }] = [{ name := "b" }, { name := "a" }]
    ∧ ([({ name := "b" } : SSHHost), { name := "a" }] ≠ [{ name := "a" }, { name := "b" }])
    ∧ GetConnectionCount
        [("a", { hostName := "a", lastConnect := 500, connectCount := 1, portForwarding := none }),
         ("b", { hostName := "b", lastConnect := 500, connectCount := 1, portForwarding := none })]
        "a" =
      GetConnectionCount
        [("a", { hostName := "a", lastConnect := 500, connectCount := 1, portForwarding := none }),
         ("b", { hostName := "b", lastConnect := 500, connectCount := 1, portForwarding := none })]
        "b"
    ∧ GetLastConnectionTime
        [("a", { hostName := "a", lastConnect := 500, connectCount := 1, portForwarding := none }),
         ("b", { hostName := "b", lastConnect := 500, connectCount := 1, portForwarding := none })]
        "a" =
      GetLastConnectionTime
        [("a", { hostName := "a", lastConnect := 500, connectCount := 1, portForwarding := none }),
         ("b", { hostName := "b", lastConnect := 500, connectCount := 1, portForwarding := none })]
        "b" := by
  refine ⟨by decide, by decide, by decide, by decide⟩

/-- C4, amended: `SortHostsByMostUsed` returns a permutation of its input
sorted by the comparator: connectCount descending; on equal counts, when
both hosts have history the more recent `lastConnect` comes first (equal
timestamps leave the pair unordered, preserving input order — no name
tie-break); when at least one host lacks history the tie-break is ascending
by name (a host with history does not automatically precede one without).
The concrete `[C,B,A] ↦ [A,B,C]` example of the claim holds. -/
theorem sort_by_frequency_ordering :
    SortHostsByMostUsed
        [("A", { hostName := "A", lastConnect := 1000, connectCount := 5, portForwarding := none }),
         ("B", { hostName := "B", lastConnect := 900, connectCount := 5, portForwarding := none }),
         ("C", { hostName := "C", lastConnect := 1000, connectCount := 2, portForwarding := none })]
        [{ name := "C" }, { name := "B" }, { name := "A" }] =
      [{ name := "A" }, { name := "B" }, { name := "C" }]
    ∧ (∀ (m : HistMap) (hosts : List SSHHost), (SortHostsByMostUsed m hosts).Perm hosts)
    ∧ (∀ (m : HistMap) (hosts : List SSHHost),
        (∀ kv ∈ m, 1 ≤ kv.2.connectCount) →
        (SortHostsByMostUsed m hosts).Pairwise (fun x y => lessMostUsed m y x = false))
    ∧ (∀ (m : HistMap) (a b : SSHHost),
        GetConnectionCount m a.name = GetConnectionCount m b.name →
        (GetLastConnectionTime m a.name).isSome = true →
        (GetLastConnectionTime m b.name).isSome = false →
        lessMostUsed m a b = decide (a.name < b.name)) := by
  refine ⟨by decide, ?_, ?_, ?_⟩
  · intro m hosts
    exact List.perm_insertionSort _ hosts
  · intro m hosts hinv
    haveI htr : IsTrans SSHHost (fun x y => lessMostUsed m y x = false) :=
      ⟨fun x y z hxy hyz => lessMostUsed_false_trans m hinv x y z hxy hyz⟩
    haveI hto : IsTotal SSHHost (fun x y => lessMostUsed m y x = false) :=
      ⟨fun x y => by
        cases h : lessMostUsed m y x with
        | false => exact Or.inl rfl
        | true => exact Or.inr (lessMostUsed_asymm m y x h)⟩
    exact List.sorted_insertionSort _ hosts
  · intro m a b hcnt hsome hnone
    obtain ⟨x, hx⟩ := Option.isSome_iff_exists.mp hsome
    have hy : GetLastConnectionTime m b.name = none := by
      cases hb : GetLastConnectionTime m b.name with
      | none => rfl
      | some y => rw [hb] at hnone; cases hnone
    simp only [lessMostUsed, hx, hy]
    rw [if_neg (show ¬(GetConnectionCount m a.name ≠ GetConnectionCount m b.name) from by omega)]

/-- C4, amended, witness. -/
theorem sort_by_frequency_ordering_witness :
    (SortHostsByMostUsed
        [("A", { hostName := "A", lastConnect := 1000, connectCount := 5, portForwarding := none }),
         ("B", { hostName := "B", lastConnect := 900, connectCount := 5, portForwarding := none }),
         ("C", { hostName := "C", lastConnect := 1000, connectCount := 2, portForwarding := none })]
        [{ name := "C" }, { name := "B" }, { name := "A" }]).Pairwise
      (fun x y => lessMostUsed
        [("A", { hostName := "A", lastConnect := 1000, connectCount := 5, portForwarding := none }),
         ("B", { hostName := "B", lastConnect := 900, connectCount := 5, portForwarding := none }),
         ("C", { hostName := "C", lastConnect := 1000, connectCount := 2, portForwarding := none })]
        y x = false) := by
  exact sort_by_frequency_ordering.2.2.1
    [("A", { hostName := "A", lastConnect := 1000, connectCount := 5, portForwarding := none }),
     ("B", { hostName := "B", lastConnect := 900, connectCount := 5, portForwarding := none }),
     ("C", { hostName := "C", lastConnect := 1000, connectCount := 2, portForwarding := none })]
    [{ name := "C" }, { name := "B" }, { name := "A" }]
    (by decide)

end Sshm
